import Mathlib

/-!
Shallow embedding of the component/event infrastructure in
src/flax/component.py: per-entity attribute storage read through the
cross-entity modifier chain (ComponentAttribute), the handler registry
built by ComponentMeta and consulted by Component.handle_event, the
static-attribute redeclaration check in ComponentMeta, deferred
construction (ComponentMeta call / ComponentInitializer), and the
Equipment component's Wears-relation handlers.  Entities are named by
natural numbers; a world maps each entity name to its data.  Attribute
values are integers; attribute names and keyword names are numbers
standing for the Python strings.
-/

namespace Flax

/-- A stored-attribute descriptor.  `ident` mirrors the object identity of
the zope Attribute object created by static_attribute; entity storage is
keyed by this identity, never by `name` (the declared attribute name,
encoded as a number). -/
structure AttrDesc where
  ident : Nat
  name : Nat
  deriving DecidableEq

/-- A modifier, contributed by a related entity's type: a pure function of
the attribute descriptor and the current value (Modifier.modify in the
collaborating flax.entity module). -/
abbrev Modifier := AttrDesc → Int → Int

/-- A relation object: a directed typed edge.  `kind` is the relation class
(e.g. Wears), `from_entity` the subject, `to_entity` the object.  The
relation classes live in flax.relation, outside src; only the fields the
code under src reads are modelled. -/
structure Rel where
  kind : Nat
  from_entity : Nat
  to_entity : Nat
  deriving DecidableEq

/-- The per-entity data the component layer touches: `component_data` is the
attribute storage dict (descriptor identity to value, in insertion order),
`relations` the relation table (relation kind to the relations of that
kind, in iteration order), and `modifiers` the ordered modifier list of the
entity's type (`entity.type.modifiers`). -/
structure EntityData where
  component_data : List (Nat × Int)
  relations : List (Nat × List Rel)
  modifiers : List Modifier

/-- The world: entity name to entity data. -/
abbrev World := Nat → EntityData

/-- Dict read, `data[key]`: first binding wins; a missing key is a KeyError,
hence `none`. -/
def assocLookup : List (Nat × Int) → Nat → Option Int
  | [], _ => none
  | (k, v) :: rest, n => if k = n then some v else assocLookup rest n

/-- Dict write, `data[key] = value`: replaces in place, or appends a new
binding at the end (Python dicts preserve insertion order). -/
def assocSet : List (Nat × Int) → Nat → Int → List (Nat × Int)
  | [], n, v => [(n, v)]
  | (k, w) :: rest, n, v =>
      if k = n then (k, v) :: rest else (k, w) :: assocSet rest n v

/-- The modifier-chain loop of ComponentAttribute.__get__ (component.py
lines 215-221): for each relation kind, for each relation of that kind,
skip it when this entity is the relation's to_entity, otherwise fold the
to_entity's type's modifiers over the value, in list order. -/
def applyModifiers (w : World) (eid : Nat) (d : AttrDesc) (v0 : Int) : Int :=
  (w eid).relations.foldl
    (fun acc p =>
      p.2.foldl
        (fun a r =>
          if eid = r.to_entity then a
          else (w r.to_entity).modifiers.foldl (fun x m => m d x) a)
        acc)
    v0

/-- ComponentAttribute.__get__: fetch the raw value from the entity's
storage under the descriptor's identity (KeyError when absent), then apply
the modifier chain. -/
def componentAttributeGet (w : World) (eid : Nat) (d : AttrDesc) : Option Int :=
  (assocLookup (w eid).component_data d.ident).map (applyModifiers w eid d)

/-- ComponentAttribute.__set__: store the raw value directly in the
entity's storage under the descriptor's identity; nothing else changes. -/
def componentAttributeSet (w : World) (eid : Nat) (d : AttrDesc) (v : Int) : World :=
  fun i =>
    if i = eid then
      { w i with component_data := assocSet (w i).component_data d.ident v }
    else w i

/-- The modifier chain of an entity flattened into one list, in the order
the spec states: relation-kind iteration order, then relation iteration
order, then the object entity's modifier-list order, skipping relations
whose to_entity is this entity. -/
def modifierChain (w : World) (eid : Nat) : List Modifier :=
  (w eid).relations.flatMap
    (fun p =>
      p.2.flatMap
        (fun r =>
          if eid = r.to_entity then [] else (w r.to_entity).modifiers))

/-- Relation-table read, `entity.relations[kind]`: the relations of one
kind, in iteration order; an absent kind is the empty collection. -/
def relsLookup : List (Nat × List Rel) → Nat → List Rel
  | [], _ => []
  | (k, rs) :: rest, n => if k = n then rs else relsLookup rest n

/-- Add a relation to a relation table under its kind, appending the kind at
the end when it is new. -/
def relsAdd : List (Nat × List Rel) → Nat → Rel → List (Nat × List Rel)
  | [], n, r => [(n, [r])]
  | (k, rs) :: rest, n, r =>
      if k = n then (k, rs ++ [r]) :: rest else (k, rs) :: relsAdd rest n r

/-- Remove a relation from a relation table under its kind. -/
def relsRemove : List (Nat × List Rel) → Nat → Rel → List (Nat × List Rel)
  | [], _, _ => []
  | (k, rs) :: rest, n, r =>
      if k = n then (k, rs.filter (fun x => x ≠ r)) :: rest
      else (k, rs) :: relsRemove rest n r

/-- Modelled from the spec: the Relation constructor of flax.relation (not
under src).  Constructing a relation records the edge in both related
entities' relation tables under its kind. -/
def relationInit (w : World) (r : Rel) : World :=
  fun i =>
    if i = r.from_entity ∨ i = r.to_entity then
      { w i with relations := relsAdd (w i).relations r.kind r }
    else w i

/-- Modelled from the spec: Relation.destroy of flax.relation (not under
src).  Destroying a relation removes the edge from both related entities'
relation tables. -/
def relationDestroy (w : World) (r : Rel) : World :=
  fun i =>
    if i = r.from_entity ∨ i = r.to_entity then
      { w i with relations := relsRemove (w i).relations r.kind r }
    else w i

/-- The Wears relation kind of flax.relation, as a number. -/
def wearsKind : Nat := 0

/-- Equipment.handle_equip (component.py lines 503-506): constructs
`Wears(event.actor, self.entity)` — the event's actor is the subject, the
equipment entity the object. -/
def handle_equip (w : World) (selfEntity actor : Nat) : World :=
  relationInit w (Rel.mk wearsKind actor selfEntity)

/-- Equipment.handle_unequip (component.py lines 508-513): iterates a copy
of `self.entity.relations[Wears]` and destroys each relation in it.  The
event's actor is never consulted. -/
def handle_unequip (w : World) (selfEntity : Nat) : World :=
  (relsLookup (w selfEntity).relations wearsKind).foldl
    (fun wa r => relationDestroy wa r) w

/-- An event kind (a Python event class), as a number. -/
abbrev EventKind := Nat

/-- A handler routine (a Python function object), as a number. -/
abbrev HandlerId := Nat

/-- One entry of a component implementation's class body, in declaration
order: either an ordinary member, or a Handler wrapping a routine that is
registered for each event class in its `event_classes` list. -/
inductive ClassMember where
  | plain : ClassMember
  | handlerMember : HandlerId → List EventKind → ClassMember
  deriving DecidableEq

/-- The handler registry: the `event_handlers` defaultdict, event class to
the routines appended for it, keys in insertion order. -/
abbrev Registry := List (EventKind × List HandlerId)

/-- `event_handlers[cls].append(func)` on a defaultdict(list): append to
the existing list, or start a new entry at the end. -/
def regAdd : Registry → EventKind → HandlerId → Registry
  | [], k, h => [(k, [h])]
  | (k', hs) :: rest, k, h =>
      if k' = k then (k', hs ++ [h]) :: rest else (k', hs) :: regAdd rest k h

/-- Processing one class-body entry in ComponentMeta.__new__ (component.py
lines 144-149): a Handler's routine is appended under every event class it
was registered for; other members leave the registry alone. -/
def memberAdd (reg : Registry) : ClassMember → Registry
  | .plain => reg
  | .handlerMember f ecs => ecs.foldl (fun r k => regAdd r k f) reg

/-- ComponentMeta.__new__ building `event_handlers` from the class body, in
declaration order (component.py lines 139-154). -/
def buildRegistry (attrs : List ClassMember) : Registry :=
  attrs.foldl memberAdd []

/-- Registry read without mutation: the routines recorded for an event
class, the empty list when the class was never recorded. -/
def regLookup : Registry → EventKind → List HandlerId
  | [], _ => []
  | (k', hs) :: rest, k => if k' = k then hs else regLookup rest k

/-- The routines one class-body entry contributes for one event kind. -/
def memberHandlers (m : ClassMember) (k : EventKind) : List HandlerId :=
  match m with
  | .plain => []
  | .handlerMember f ecs => ecs.flatMap (fun e => if e = k then [f] else [])

/-- The routines a class body registers for one event kind, in declaration
order. -/
def handlersFor (attrs : List ClassMember) (k : EventKind) : List HandlerId :=
  attrs.flatMap (fun m => memberHandlers m k)

/-- Every handler routine a class body declares, in declaration order. -/
def funcsOf (attrs : List ClassMember) : List HandlerId :=
  attrs.flatMap
    (fun m => match m with | .plain => [] | .handlerMember f _ => [f])

/-- `event_handlers[event_class]` on a defaultdict(list): the recorded
list when present; otherwise a fresh empty list is inserted at the end of
the dict and returned.  Yields the list and the (possibly grown) dict. -/
def regIndex : Registry → EventKind → List HandlerId × Registry
  | [], k => ([], [(k, [])])
  | (k', hs) :: rest, k =>
      if k' = k then (hs, (k', hs) :: rest)
      else
        let p := regIndex rest k
        (p.1, (k', hs) :: p.2)

/-- Component.handle_event (component.py lines 304-309): for each event
class in the event type's mro, most specific first, run every routine in
`self.event_handlers[event_class]` in list order.  Yields the sequence of
routine invocations and the registry as left behind (the defaultdict may
have grown empty entries). -/
def handle_event : Registry → List EventKind → List HandlerId × Registry
  | reg, [] => ([], reg)
  | reg, k :: rest =>
      let p := regIndex reg k
      let q := handle_event p.2 rest
      (p.1 ++ q.1, q.2)

/-- The mode tag static_attribute and derived_attribute put on an interface
attribute; interface methods carry no mode. -/
inductive AttrMode where
  | static : AttrMode
  | derived : AttrMode
  deriving DecidableEq

/-- One member of a capability interface: its name (a number standing for
the string) and its mode tag, `none` for methods. -/
structure IfaceMember where
  name : Nat
  mode : Option AttrMode
  deriving DecidableEq

/-- The construction-time configuration error of ComponentMeta.__init__:
the TypeError raised when an implementation defines a static attribute its
interface already provides. -/
inductive ConfigError where
  | staticRedeclared : Nat → ConfigError
  deriving DecidableEq

/-- The descriptor-installation loop of ComponentMeta.__init__
(component.py lines 167-181): walk the interface's members; for each
static one, fail with TypeError when the implementation's class dict
already has that name, otherwise install a ComponentAttribute descriptor
for it.  Yields the names that received descriptors. -/
def installDescriptors : List IfaceMember → List Nat → Except ConfigError (List Nat)
  | [], _ => .ok []
  | m :: rest, clsDict =>
      match m.mode with
      | some .static =>
          if m.name ∈ clsDict then .error (.staticRedeclared m.name)
          else (installDescriptors rest clsDict).map (fun ds => m.name :: ds)
      | _ => installDescriptors rest clsDict

/-- Whether class definition failed (the TypeError propagated). -/
def initFails : Except ConfigError (List Nat) → Bool
  | .error _ => true
  | .ok _ => false

/-- Keyword arguments captured by calling a component class: keyword name
(a number standing for the string) to value. -/
abbrev Kwargs := List (Nat × Int)

/-- Keyword read at application time. -/
def kwLookup : Kwargs → Nat → Int
  | [], _ => 0
  | (k, v) :: rest, n => if k = n then v else kwLookup rest n

/-- A component class, as deferred construction sees it.  Modelled from the
spec: an implementation's __init__ is constructor logic that writes
constructor-derived values through attribute descriptors into the bound
entity's storage, so it is embedded as the list of descriptor writes it
performs for given keyword arguments. -/
structure CompClass where
  initProgram : Kwargs → List (AttrDesc × Int)

/-- ComponentInitializer (component.py lines 111-127): the captured
component class and keyword arguments, nothing else. -/
structure ComponentInitializer where
  component : CompClass
  kwargs : Kwargs

/-- ComponentMeta.__call__ (component.py lines 183-188): calling a
component class builds a ComponentInitializer from the class and the
keyword arguments; the world (every entity's storage and relation table)
is passed through untouched. -/
def componentMetaCall (w : World) (c : CompClass) (kw : Kwargs) :
    ComponentInitializer × World :=
  (ComponentInitializer.mk c kw, w)

/-- Capturing a factory `n` times in a row, keeping only the world. -/
def captureTimes : Nat → World → CompClass → Kwargs → World
  | 0, w, _, _ => w
  | n + 1, w, c, kw => captureTimes n (componentMetaCall w c kw).2 c kw

/-- ComponentInitializer.init_entity: bind a fresh component instance to
the entity and run the implementation's constructor, whose descriptor
writes go through ComponentAttribute.__set__ into the entity's storage. -/
def init_entity (ci : ComponentInitializer) (eid : Nat) (w : World) : World :=
  (ci.component.initProgram ci.kwargs).foldl
    (fun wa dv => componentAttributeSet wa eid dv.1 dv.2) w

/-- The name of the health keyword/attribute, as a number. -/
def healthName : Nat := 30

/-- The name of the strength keyword/attribute, as a number. -/
def strengthName : Nat := 31

/-- The descriptor of ICombatant.health. -/
def healthDesc : AttrDesc := AttrDesc.mk 20 healthName

/-- The descriptor of ICombatant.strength. -/
def combatStrengthDesc : AttrDesc := AttrDesc.mk 21 strengthName

/-- The Combatant implementation: its __init__ writes the health and
strength keywords through the two ICombatant descriptors (component.py
lines 402-405). -/
def combatantClass : CompClass :=
  CompClass.mk
    (fun kw =>
      [(healthDesc, kwLookup kw healthName),
       (combatStrengthDesc, kwLookup kw strengthName)])

/-- The name of a strength-like attribute in scenario D, as a number. -/
def scenarioStrengthName : Nat := 7

/-- The descriptor of the strength-like stored attribute read in
scenario D. -/
def strengthDesc : AttrDesc := AttrDesc.mk 1 scenarioStrengthName

/-- Scenario D's world, for a given raw value: entity 0 (Wearer) stores the
raw value and is related via Wears to entity 1 (Armor), whose type
contributes a modifier adding 5 to the strength-like attribute; entity 2
(an unrelated entity) stores the same raw value and has no relations. -/
def scenarioD (raw : Int) : World :=
  fun i =>
    if i = 0 then
      EntityData.mk [(strengthDesc.ident, raw)]
        [(wearsKind, [Rel.mk wearsKind 0 1])] []
    else if i = 1 then
      EntityData.mk []
        [(wearsKind, [Rel.mk wearsKind 0 1])]
        [fun d v => if d.ident = strengthDesc.ident then v + 5 else v]
    else
      EntityData.mk [(strengthDesc.ident, raw)] [] []

/-- Scenario B's starting world: entity 0 (Player) already wears entity 2
(Boots); entity 1 (Armor) has no relations.  No attribute storage or
modifiers are involved. -/
def scenarioB : World :=
  fun i =>
    if i = 0 then
      EntityData.mk [] [(wearsKind, [Rel.mk wearsKind 0 2])] []
    else if i = 2 then
      EntityData.mk [] [(wearsKind, [Rel.mk wearsKind 0 2])] []
    else
      EntityData.mk [] [] []

/-- A world of bare entities: empty storage, no relations, no modifiers. -/
def emptyWorld : World :=
  fun _ => EntityData.mk [] [] []

/-- The Base event kind of the dispatch-specificity scenario. -/
def baseKind : EventKind := 0

/-- The Derived event kind, subclassing Base. -/
def derivedKind : EventKind := 1

/-- The class body of the dispatch-specificity scenario: handler 101 for
Base declared first, handler 102 for Derived declared second. -/
def specAttrs : List ClassMember :=
  [ClassMember.handlerMember 101 [baseKind],
   ClassMember.handlerMember 102 [derivedKind]]

/-- The class body of the PortalDownstairs subclass: only its own
handle_descend handler (routine 5 for event kind 9); the Portal base
class's members are not in it. -/
def downstairsAttrs : List ClassMember :=
  [ClassMember.handlerMember 5 [9]]

/-- Descriptor of an attribute named 50 declared by a first interface. -/
def valueDescA : AttrDesc := AttrDesc.mk 40 50

/-- Descriptor of an attribute with the same name 50 declared by a second
interface: same name, distinct identity. -/
def valueDescB : AttrDesc := AttrDesc.mk 41 50

/-- A class body declaring two handlers, the first-declared routine `f1`
registered for the kinds `ecs1` and the later-declared routine `f2` for
`ecs2`, with arbitrary other members around them. -/
def twoHandlerBody (pre mid post : List ClassMember) (f1 f2 : HandlerId)
    (ecs1 ecs2 : List EventKind) : List ClassMember :=
  pre ++ ClassMember.handlerMember f1 ecs1
    :: (mid ++ ClassMember.handlerMember f2 ecs2 :: post)

section Lemmas

/-- Reading the key just written. -/
theorem assocLookup_assocSet_self (l : List (Nat × Int)) (n : Nat) (v : Int) :
    assocLookup (assocSet l n v) n = some v := by
  induction l with
  | nil => simp [assocSet, assocLookup]
  | cons p rest ih =>
      obtain ⟨k, w⟩ := p
      by_cases h : k = n <;> simp [assocSet, assocLookup, h, ih]

/-- Writing one key leaves every other key's value alone. -/
theorem assocLookup_assocSet_ne (l : List (Nat × Int)) (n m : Nat) (v : Int)
    (h : n ≠ m) : assocLookup (assocSet l n v) m = assocLookup l m := by
  induction l with
  | nil => simp [assocSet, assocLookup, h]
  | cons p rest ih =>
      obtain ⟨k, w⟩ := p
      by_cases hk : k = n
      · subst hk
        simp [assocSet, assocLookup, h]
      · by_cases hm : k = m <;>
          simp [assocSet, assocLookup, hk, hm, ih, Ne.symm h]

/-- An attribute write touches no entity's relation table. -/
theorem set_relations (w : World) (eid : Nat) (d : AttrDesc) (v : Int)
    (j : Nat) :
    ((componentAttributeSet w eid d v) j).relations = (w j).relations := by
  unfold componentAttributeSet
  by_cases h : j = eid <;> simp [h]

/-- An attribute write touches no entity's modifier list. -/
theorem set_modifiers (w : World) (eid : Nat) (d : AttrDesc) (v : Int)
    (j : Nat) :
    ((componentAttributeSet w eid d v) j).modifiers = (w j).modifiers := by
  unfold componentAttributeSet
  by_cases h : j = eid <;> simp [h]

/-- An attribute write leaves every other entity untouched. -/
theorem set_other (w : World) (eid : Nat) (d : AttrDesc) (v : Int)
    (j : Nat) (h : j ≠ eid) : (componentAttributeSet w eid d v) j = w j := by
  unfold componentAttributeSet
  simp [h]

/-- The written entity's storage after an attribute write. -/
theorem set_data_self (w : World) (eid : Nat) (d : AttrDesc) (v : Int) :
    ((componentAttributeSet w eid d v) eid).component_data
      = assocSet (w eid).component_data d.ident v := by
  unfold componentAttributeSet
  simp

/-- The modifier chain only reads relation tables and modifier lists, so an
attribute write never changes its result. -/
theorem applyModifiers_set (w : World) (eid : Nat) (d : AttrDesc) (v : Int)
    (eid' : Nat) (d' : AttrDesc) (x : Int) :
    applyModifiers (componentAttributeSet w eid d v) eid' d' x
      = applyModifiers w eid' d' x := by
  unfold applyModifiers
  simp only [set_relations, set_modifiers]

/-- With no relations the modifier chain is a no-op. -/
theorem applyModifiers_no_relations (w : World) (eid : Nat) (d : AttrDesc)
    (v : Int) (h : (w eid).relations = []) : applyModifiers w eid d v = v := by
  unfold applyModifiers
  rw [h]
  rfl

/-- Folding over a flattened list is the nested fold. -/
theorem foldl_flatMap_eq {α β γ : Type} (g : α → List β) (f : γ → β → γ) :
    ∀ (L : List α) (v : γ),
      (L.flatMap g).foldl f v = L.foldl (fun a x => (g x).foldl f a) v := by
  intro L
  induction L with
  | nil => intro v; rfl
  | cons p L ih =>
      intro v
      simp only [List.flatMap_cons, List.foldl_append, List.foldl_cons, ih]

/-- The nested modifier loop equals one fold over the flattened chain. -/
theorem applyModifiers_eq_chain (w : World) (eid : Nat) (d : AttrDesc)
    (v : Int) :
    applyModifiers w eid d v
      = (modifierChain w eid).foldl (fun x m => m d x) v := by
  unfold applyModifiers modifierChain
  rw [foldl_flatMap_eq]
  congr 1
  funext a p
  rw [foldl_flatMap_eq]
  congr 1
  funext b r
  by_cases h : eid = r.to_entity <;> simp [h]

/-- What one defaultdict append does to every key's recorded list. -/
theorem regLookup_regAdd (reg : Registry) (k' k : EventKind) (h : HandlerId) :
    regLookup (regAdd reg k' h) k
      = regLookup reg k ++ (if k' = k then [h] else []) := by
  induction reg with
  | nil => by_cases hk : k' = k <;> simp [regAdd, regLookup, hk]
  | cons p rest ih =>
      obtain ⟨k₀, hs⟩ := p
      by_cases h1 : k₀ = k'
      · subst h1
        by_cases h2 : k₀ = k
        · subst h2
          simp [regAdd, regLookup]
        · simp [regAdd, regLookup, h2]
      · by_cases h2 : k₀ = k
        · subst h2
          have hk : k' ≠ k₀ := fun e => h1 e.symm
          simp [regAdd, regLookup, h1, hk]
        · simp [regAdd, regLookup, h1, h2, ih]

/-- Registering one routine for a list of event classes appends it to each
class's recorded list, once per occurrence. -/
theorem regLookup_foldl_regAdd (f : HandlerId) :
    ∀ (ecs : List EventKind) (reg : Registry) (k : EventKind),
      regLookup (ecs.foldl (fun r e => regAdd r e f) reg) k
        = regLookup reg k ++ ecs.flatMap (fun e => if e = k then [f] else []) := by
  intro ecs
  induction ecs with
  | nil => intro reg k; simp
  | cons e ecs ih =>
      intro reg k
      simp only [List.foldl_cons, List.flatMap_cons, ih, regLookup_regAdd,
        List.append_assoc]

/-- What one class-body entry contributes to every key's recorded list. -/
theorem regLookup_memberAdd (reg : Registry) (m : ClassMember)
    (k : EventKind) :
    regLookup (memberAdd reg m) k = regLookup reg k ++ memberHandlers m k := by
  cases m with
  | plain => simp [memberAdd, memberHandlers]
  | handlerMember f ecs =>
      simp [memberAdd, memberHandlers, regLookup_foldl_regAdd]

/-- Folding a class body into a registry appends, per key, exactly the
routines the body registers for that key, in declaration order. -/
theorem regLookup_foldl_memberAdd :
    ∀ (attrs : List ClassMember) (reg : Registry) (k : EventKind),
      regLookup (attrs.foldl memberAdd reg) k
        = regLookup reg k ++ handlersFor attrs k := by
  intro attrs
  induction attrs with
  | nil => intro reg k; simp [handlersFor]
  | cons m attrs ih =>
      intro reg k
      simp [List.foldl_cons, handlersFor, List.flatMap_cons, ih,
        regLookup_memberAdd, List.append_assoc]

/-- The registry ComponentMeta builds records, for every event kind,
exactly the routines the class body registers for it, in declaration
order. -/
theorem regLookup_buildRegistry (attrs : List ClassMember) (k : EventKind) :
    regLookup (buildRegistry attrs) k = handlersFor attrs k := by
  unfold buildRegistry
  rw [regLookup_foldl_memberAdd]
  rfl

/-- The value a defaultdict index returns is the recorded list (empty for
an absent key). -/
theorem regIndex_fst (reg : Registry) (k : EventKind) :
    (regIndex reg k).1 = regLookup reg k := by
  induction reg with
  | nil => simp [regIndex, regLookup]
  | cons p rest ih =>
      obtain ⟨k', hs⟩ := p
      by_cases h : k' = k <;> simp [regIndex, regLookup, h, ih]

/-- A defaultdict index never changes what any key's lookup yields: an
entry it inserts is empty, which is what an absent key already read as. -/
theorem regLookup_regIndex_snd (reg : Registry) (k k' : EventKind) :
    regLookup (regIndex reg k).2 k' = regLookup reg k' := by
  induction reg with
  | nil =>
      by_cases h : k = k' <;> simp [regIndex, regLookup, h]
  | cons p rest ih =>
      obtain ⟨k₀, hs⟩ := p
      by_cases h0 : k₀ = k
      · subst h0
        simp [regIndex, regLookup]
      · by_cases h1 : k₀ = k'
        · subst h1
          simp [regIndex, regLookup, h0]
        · simp [regIndex, regLookup, h0, h1, ih]

/-- Every entry of the dict a defaultdict index leaves behind was already
present, or is an inserted empty one. -/
theorem regIndex_snd_mem (reg : Registry) (k : EventKind)
    (p : EventKind × List HandlerId) (hp : p ∈ (regIndex reg k).2) :
    p ∈ reg ∨ p.2 = [] := by
  induction reg with
  | nil =>
      simp [regIndex] at hp
      subst hp
      simp
  | cons q rest ih =>
      obtain ⟨k₀, hs⟩ := q
      by_cases h0 : k₀ = k
      · simp [regIndex, h0] at hp
        rcases hp with hp | hp
        · exact Or.inl (by simp [hp, h0])
        · exact Or.inl (List.mem_cons_of_mem _ hp)
      · simp only [regIndex, h0, if_false, List.mem_cons] at hp
        rcases hp with hp | hp
        · exact Or.inl (by simp [hp])
        · rcases ih hp with h | h
          · exact Or.inl (List.mem_cons_of_mem _ h)
          · exact Or.inr h

/-- The invocation sequence of a dispatch: for each event kind of the mro
in order, the routines the registry records for it, in order. -/
theorem handle_event_fst :
    ∀ (mro : List EventKind) (reg : Registry),
      (handle_event reg mro).1 = mro.flatMap (fun k => regLookup reg k) := by
  intro mro
  induction mro with
  | nil => intro reg; rfl
  | cons k rest ih =>
      intro reg
      simp only [handle_event, List.flatMap_cons, ih, regIndex_fst,
        regLookup_regIndex_snd]

/-- Dispatch never changes what any event kind's lookup yields. -/
theorem handle_event_lookup :
    ∀ (mro : List EventKind) (reg : Registry) (k : EventKind),
      regLookup (handle_event reg mro).2 k = regLookup reg k := by
  intro mro
  induction mro with
  | nil => intro reg k; rfl
  | cons k0 rest ih =>
      intro reg k
      simp only [handle_event, ih, regLookup_regIndex_snd]

/-- Every entry of the registry a dispatch leaves behind was already
present, or is an inserted empty one. -/
theorem handle_event_snd_mem :
    ∀ (mro : List EventKind) (reg : Registry)
      (p : EventKind × List HandlerId),
      p ∈ (handle_event reg mro).2 → p ∈ reg ∨ p.2 = [] := by
  intro mro
  induction mro with
  | nil => intro reg p hp; exact Or.inl hp
  | cons k rest ih =>
      intro reg p hp
      simp only [handle_event] at hp
      rcases ih _ _ hp with h | h
      · exact regIndex_snd_mem reg k p h
      · exact Or.inr h

/-- The per-kind handler lists distribute over class-body concatenation. -/
theorem handlersFor_append (l1 l2 : List ClassMember) (k : EventKind) :
    handlersFor (l1 ++ l2) k = handlersFor l1 k ++ handlersFor l2 k := by
  simp [handlersFor]

/-- The declared-routine list distributes over class-body concatenation. -/
theorem funcsOf_append (l1 l2 : List ClassMember) :
    funcsOf (l1 ++ l2) = funcsOf l1 ++ funcsOf l2 := by
  simp [funcsOf]

/-- A routine registered for some kind is a declared routine. -/
theorem mem_funcsOf_of_mem_handlersFor (attrs : List ClassMember)
    (k : EventKind) (h : HandlerId) (hh : h ∈ handlersFor attrs k) :
    h ∈ funcsOf attrs := by
  simp only [handlersFor, funcsOf, List.mem_flatMap] at hh ⊢
  obtain ⟨m, hm, hmem⟩ := hh
  refine ⟨m, hm, ?_⟩
  cases m with
  | plain => simp [memberHandlers] at hmem
  | handlerMember f ecs =>
      simp only [memberHandlers, List.mem_flatMap] at hmem
      obtain ⟨e, _, he⟩ := hmem
      by_cases hek : e = k
      · simp [hek] at he
        simp [he]
      · simp [hek] at he

/-- Every routine a handler entry contributes for a kind is its own. -/
theorem mem_memberHandlers_eq (f x : HandlerId) (ecs : List EventKind)
    (k : EventKind)
    (hx : x ∈ memberHandlers (ClassMember.handlerMember f ecs) k) : x = f := by
  simp only [memberHandlers, List.mem_flatMap] at hx
  obtain ⟨e, -, he⟩ := hx
  by_cases hek : e = k
  · simp [hek] at he
    exact he
  · simp [hek] at he

/-- A handler entry registered for a kind contributes its routine. -/
theorem self_mem_memberHandlers (f : HandlerId) (ecs : List EventKind)
    (k : EventKind) (hk : k ∈ ecs) :
    f ∈ memberHandlers (ClassMember.handlerMember f ecs) k := by
  simp only [memberHandlers, List.mem_flatMap]
  exact ⟨k, hk, by simp⟩

/-- Post-processing a successful result keeps success and failure. -/
theorem initFails_map (x : Except ConfigError (List Nat))
    (f : List Nat → List Nat) : initFails (x.map f) = initFails x := by
  cases x <;> rfl

end Lemmas

/-- C1: reading a stored attribute through a component instance bound to an
entity returns the raw stored value transformed by the modifier chain, in
relation-kind order, then relation order, then the object entity's
modifier-list order, skipping every relation whose to_entity is this
entity.  In scenario D the Wearer, related via Wears to an Armor whose type
adds 5 to the strength-like attribute, reads raw value + 5, while an
unrelated entity with the same raw value reads it unmodified. -/
theorem attribute_read_applies_modifier_chain (w : World) (eid : Nat)
    (d : AttrDesc) (raw : Int) :
    componentAttributeGet w eid d
        = (assocLookup (w eid).component_data d.ident).map
            (fun v => (modifierChain w eid).foldl (fun x m => m d x) v)
      ∧ componentAttributeGet (scenarioD raw) 0 strengthDesc = some (raw + 5)
      ∧ componentAttributeGet (scenarioD raw) 2 strengthDesc = some raw := by
  refine ⟨?_, ?_, ?_⟩
  · unfold componentAttributeGet
    have he : applyModifiers w eid d
        = fun v => (modifierChain w eid).foldl (fun x m => m d x) v :=
      funext (applyModifiers_eq_chain w eid d)
    rw [he]
  · rfl
  · rfl

/-- C6: with no relations on the entity, writing a stored attribute and
reading it back returns exactly the written value. -/
theorem attribute_round_trip (w : World) (eid : Nat) (d : AttrDesc)
    (v : Int) (h : (w eid).relations = []) :
    componentAttributeGet (componentAttributeSet w eid d v) eid d
      = some v := by
  unfold componentAttributeGet
  rw [set_data_self, assocLookup_assocSet_self]
  simp only [Option.map_some']
  rw [applyModifiers_set, applyModifiers_no_relations w eid d v h]

/-- C6 witness: on a bare entity, writing 7 then reading yields 7. -/
theorem attribute_round_trip_witness :
    componentAttributeGet
        (componentAttributeSet emptyWorld 4 strengthDesc 7) 4 strengthDesc
      = some 7 :=
  attribute_round_trip emptyWorld 4 strengthDesc 7 rfl

/-- C7: stored attributes are keyed by descriptor identity, not name:
writing through one interface's descriptor never changes the value read
through another interface's descriptor of the same name. -/
theorem attribute_name_non_collision (w : World) (eid : Nat)
    (d1 d2 : AttrDesc) (v : Int) (hn : d1.name = d2.name)
    (hi : d1.ident ≠ d2.ident) :
    componentAttributeGet (componentAttributeSet w eid d1 v) eid d2
      = componentAttributeGet w eid d2 := by
  unfold componentAttributeGet
  rw [set_data_self, assocLookup_assocSet_ne _ _ _ _ hi]
  have he : applyModifiers (componentAttributeSet w eid d1 v) eid d2
      = applyModifiers w eid d2 :=
    funext (applyModifiers_set w eid d1 v eid d2)
  rw [he]

/-- C7 witness: two descriptors that share the name 50 but not the
identity; writing the first leaves a read of the second unchanged. -/
theorem attribute_name_non_collision_witness :
    componentAttributeGet
        (componentAttributeSet emptyWorld 3 valueDescA 9) 3 valueDescB
      = componentAttributeGet emptyWorld 3 valueDescB :=
  attribute_name_non_collision emptyWorld 3 valueDescA valueDescB 9 rfl
    (by decide)

/-- C2: dispatch iterates the event's type hierarchy from most specific to
most general, so any handler recorded for the event's exact kind is invoked
before any handler not recorded for that kind (in particular one registered
only for an ancestor kind); concretely, with handler 101 registered for
Base and 102 for Derived, dispatching a Derived event runs 102 then 101. -/
theorem dispatch_specificity (reg : Registry) (k0 : EventKind)
    (rest : List EventKind) (h1 h2 : HandlerId)
    (hm : h2 ∈ regLookup reg k0) (hn : h1 ∉ regLookup reg k0) :
    ((handle_event reg (k0 :: rest)).1.indexOf h2
        < (handle_event reg (k0 :: rest)).1.indexOf h1)
      ∧ (handle_event (buildRegistry specAttrs) [derivedKind, baseKind]).1
          = [102, 101] := by
  constructor
  · rw [handle_event_fst]
    simp only [List.flatMap_cons]
    rw [List.indexOf_append_of_mem hm, List.indexOf_append_of_not_mem hn]
    have hlt : (regLookup reg k0).indexOf h2 < (regLookup reg k0).length :=
      List.indexOf_lt_length.mpr hm
    omega
  · rfl

/-- C2 witness: in the Base/Derived scenario the Derived handler 102 is
recorded for the exact kind, the Base handler 101 is not, and the dispatch
invokes 102 before 101. -/
theorem dispatch_specificity_witness :
    ((handle_event (buildRegistry specAttrs) (derivedKind :: [baseKind])).1.indexOf 102
        < (handle_event (buildRegistry specAttrs) (derivedKind :: [baseKind])).1.indexOf 101)
      ∧ (handle_event (buildRegistry specAttrs) [derivedKind, baseKind]).1
          = [102, 101] :=
  dispatch_specificity (buildRegistry specAttrs) derivedKind [baseKind] 101 102
    (by decide) (by decide)

/-- C10: a component class's registry holds exactly the handlers of its own
class body; a routine not declared in that body (such as a base class's
handler) is in no entry of the registry and is never invoked by any
dispatch to an instance of the class. -/
theorem subclass_registry_excludes_base_handlers
    (subAttrs : List ClassMember) (h : HandlerId) (k : EventKind)
    (mro : List EventKind) (hh : h ∉ funcsOf subAttrs) :
    regLookup (buildRegistry subAttrs) k = handlersFor subAttrs k
      ∧ h ∉ regLookup (buildRegistry subAttrs) k
      ∧ h ∉ (handle_event (buildRegistry subAttrs) mro).1 := by
  refine ⟨regLookup_buildRegistry subAttrs k, ?_, ?_⟩
  · intro hmem
    rw [regLookup_buildRegistry] at hmem
    exact hh (mem_funcsOf_of_mem_handlersFor subAttrs k h hmem)
  · intro hmem
    rw [handle_event_fst] at hmem
    simp only [List.mem_flatMap] at hmem
    obtain ⟨k', -, hk'⟩ := hmem
    rw [regLookup_buildRegistry] at hk'
    exact hh (mem_funcsOf_of_mem_handlersFor subAttrs k' h hk')

/-- C10 witness: the PortalDownstairs body declares only routine 5; the
base class's routine 3 is in no registry entry and never runs, even when a
Descend event (kind 9, ancestor kind 8) is dispatched. -/
theorem subclass_registry_excludes_base_handlers_witness :
    (regLookup (buildRegistry downstairsAttrs) 9
        = handlersFor downstairsAttrs 9)
      ∧ 3 ∉ regLookup (buildRegistry downstairsAttrs) 9
      ∧ 3 ∉ (handle_event (buildRegistry downstairsAttrs) [9, 8]).1 :=
  subclass_registry_excludes_base_handlers downstairsAttrs 3 9 [9, 8]
    (by decide)

/-- C4 counterexample: the claim that no dispatch changes the registry
mapping's key set fails.  Portal-like class bodies with no handlers build
an empty registry, and dispatching an event of kind 3 inserts the key 3
(bound to an empty list) through the defaultdict index. -/
theorem dispatch_inserts_registry_key :
    (handle_event (buildRegistry [ClassMember.plain]) [3]).2
      ≠ buildRegistry [ClassMember.plain] := by
  decide

/-- C4 amended: dispatch never changes any event kind's recorded handler
list (every lookup is unchanged), and every entry of the registry it
leaves behind was already present or is an inserted empty one — only the
key set can grow, by keys bound to empty lists. -/
theorem dispatch_preserves_handler_lists (reg : Registry)
    (mro : List EventKind) (k : EventKind)
    (p : EventKind × List HandlerId)
    (hp : p ∈ (handle_event reg mro).2) :
    regLookup (handle_event reg mro).2 k = regLookup reg k
      ∧ (p ∈ reg ∨ p.2 = []) :=
  ⟨handle_event_lookup mro reg k, handle_event_snd_mem mro reg p hp⟩

/-- C4 witness: after the key-inserting dispatch of the counterexample, the
lookup of kind 3 is unchanged and the new entry is an empty one. -/
theorem dispatch_preserves_handler_lists_witness :
    regLookup (handle_event (buildRegistry [ClassMember.plain]) [3]).2 3
        = regLookup (buildRegistry [ClassMember.plain]) 3
      ∧ (((3 : EventKind), ([] : List HandlerId))
            ∈ buildRegistry [ClassMember.plain]
          ∨ (((3 : EventKind), ([] : List HandlerId))).2 = []) :=
  dispatch_preserves_handler_lists (buildRegistry [ClassMember.plain]) [3] 3
    (3, []) (by decide)

/-- C5: defining a component implementation fails with the TypeError at
class-definition time exactly when some static attribute of its interface
is already defined in the implementation's class dict; with no such
redeclaration the definition succeeds. -/
theorem static_redeclaration_fails (iface : List IfaceMember)
    (clsDict : List Nat) :
    initFails (installDescriptors iface clsDict) = true
      ↔ ∃ m, m ∈ iface ∧ m.mode = some AttrMode.static
          ∧ m.name ∈ clsDict := by
  induction iface with
  | nil => simp [installDescriptors, initFails]
  | cons m rest ih =>
      by_cases hs : m.mode = some AttrMode.static
      · by_cases hd : m.name ∈ clsDict
        · have hL : initFails (installDescriptors (m :: rest) clsDict)
              = true := by
            simp [installDescriptors, hs, hd, initFails]
          exact iff_of_true hL ⟨m, List.mem_cons_self m rest, hs, hd⟩
        · have hstep : installDescriptors (m :: rest) clsDict
              = (installDescriptors rest clsDict).map
                  (fun ds => m.name :: ds) := by
            simp [installDescriptors, hs, hd]
          rw [hstep, initFails_map, ih]
          constructor
          · rintro ⟨m', hm1, hm2, hm3⟩
            exact ⟨m', List.mem_cons_of_mem _ hm1, hm2, hm3⟩
          · rintro ⟨m', hm1, hm2, hm3⟩
            rcases List.mem_cons.mp hm1 with he | hm1'
            · exact absurd (he ▸ hm3) hd
            · exact ⟨m', hm1', hm2, hm3⟩
      · have hstep : installDescriptors (m :: rest) clsDict
            = installDescriptors rest clsDict := by
          rcases hmode : m.mode with _ | md
          · simp [installDescriptors, hmode]
          · cases md
            · exact absurd hmode hs
            · simp [installDescriptors, hmode]
        rw [hstep, ih]
        constructor
        · rintro ⟨m', hm1, hm2, hm3⟩
          exact ⟨m', List.mem_cons_of_mem _ hm1, hm2, hm3⟩
        · rintro ⟨m', hm1, hm2, hm3⟩
          rcases List.mem_cons.mp hm1 with he | hm1'
          · exact absurd (he ▸ hm2) hs
          · exact ⟨m', hm1', hm2, hm3⟩

/-- C5 witness: an interface with static attribute 60; a class dict that
redeclares it fails at definition time, one that does not succeeds. -/
theorem static_redeclaration_fails_witness :
    initFails (installDescriptors
        [IfaceMember.mk 60 (some AttrMode.static)] [60]) = true
      ∧ initFails (installDescriptors
        [IfaceMember.mk 60 (some AttrMode.static)] [61]) = false :=
  ⟨(static_redeclaration_fails [IfaceMember.mk 60 (some AttrMode.static)]
      [60]).mpr
        ⟨IfaceMember.mk 60 (some AttrMode.static), by simp, rfl, by simp⟩,
   by decide⟩

/-- C8: capturing a factory (calling a component class) any number of
times leaves the world — every entity's storage and relation table —
exactly as it was; applying the resulting initializer with init_entity is
what writes the constructor-derived values (here Combatant's health and
strength keywords) into the target entity's storage, and it touches no
other entity. -/
theorem capture_pure_init_writes (n : Nat) (w : World) (c : CompClass)
    (kw : Kwargs) (eid j : Nat) (h s : Int) (hj : j ≠ eid) :
    captureTimes n w c kw = w
      ∧ assocLookup
          ((init_entity (ComponentInitializer.mk combatantClass
              [(healthName, h), (strengthName, s)]) eid w) eid).component_data
          healthDesc.ident = some h
      ∧ assocLookup
          ((init_entity (ComponentInitializer.mk combatantClass
              [(healthName, h), (strengthName, s)]) eid w) eid).component_data
          combatStrengthDesc.ident = some s
      ∧ (init_entity (ComponentInitializer.mk combatantClass
          [(healthName, h), (strengthName, s)]) eid w) j = w j := by
  have hcap : ∀ (n : Nat) (w : World), captureTimes n w c kw = w := by
    intro n
    induction n with
    | zero => intro w; rfl
    | succ n ih => intro w; exact ih w
  have hinit : init_entity (ComponentInitializer.mk combatantClass
        [(healthName, h), (strengthName, s)]) eid w
      = componentAttributeSet (componentAttributeSet w eid healthDesc h)
          eid combatStrengthDesc s := by
    rfl
  have hdata : ((componentAttributeSet
        (componentAttributeSet w eid healthDesc h)
        eid combatStrengthDesc s) eid).component_data
      = assocSet (assocSet (w eid).component_data healthDesc.ident h)
          combatStrengthDesc.ident s := by
    rw [set_data_self, set_data_self]
  refine ⟨hcap n w, ?_, ?_, ?_⟩
  · rw [hinit, hdata,
      assocLookup_assocSet_ne _ _ _ _ (by decide),
      assocLookup_assocSet_self]
  · rw [hinit, hdata, assocLookup_assocSet_self]
  · rw [hinit, set_other _ _ _ _ _ hj, set_other _ _ _ _ _ hj]

/-- C8 witness: three captures of a Combatant factory leave a world of bare
entities unchanged; applying the initializer with health 10 and strength 3
to entity 0 stores 10 and 3 under the two descriptors and leaves entity 1
untouched. -/
theorem capture_pure_init_writes_witness :
    captureTimes 3 emptyWorld combatantClass [] = emptyWorld
      ∧ assocLookup
          ((init_entity (ComponentInitializer.mk combatantClass
              [(healthName, 10), (strengthName, 3)]) 0 emptyWorld)
            0).component_data healthDesc.ident = some 10
      ∧ assocLookup
          ((init_entity (ComponentInitializer.mk combatantClass
              [(healthName, 10), (strengthName, 3)]) 0 emptyWorld)
            0).component_data combatStrengthDesc.ident = some 3
      ∧ (init_entity (ComponentInitializer.mk combatantClass
          [(healthName, 10), (strengthName, 3)]) 0 emptyWorld) 1
          = emptyWorld 1 :=
  capture_pure_init_writes 3 emptyWorld combatantClass [] 0 1 10 3
    (by decide)

/-- C9 counterexample: with the Player (entity 0) already wearing the
Boots (entity 2), delivering Equip then the matching Unequip for the Armor
(entity 1) leaves the Wears relation with subject Player and object Boots
in place, so the Unequip does not destroy every Wears relation whose
subject is the Player: handle_unequip only iterates the target entity's
own Wears relations. -/
theorem unequip_spares_other_wears :
    Rel.mk wearsKind 0 2
      ∈ relsLookup ((handle_unequip (handle_equip scenarioB 1 0) 1)
          0).relations wearsKind := by
  decide

/-- C9 amended: Equip(actor = Player, target = Armor) creates the Wears
relation (Player, Armor) in both entities' relation tables; the matching
Unequip destroys every Wears relation in the target (Armor) entity's
relation table — in particular the relation the Equip created is removed
from both sides — but Wears relations of the Player not involving the
Armor survive. -/
theorem unequip_destroys_target_wears :
    (Rel.mk wearsKind 0 1
        ∈ relsLookup ((handle_equip scenarioB 1 0) 0).relations wearsKind)
      ∧ (Rel.mk wearsKind 0 1
        ∈ relsLookup ((handle_equip scenarioB 1 0) 1).relations wearsKind)
      ∧ relsLookup ((handle_unequip (handle_equip scenarioB 1 0) 1)
          1).relations wearsKind = []
      ∧ Rel.mk wearsKind 0 1
        ∉ relsLookup ((handle_unequip (handle_equip scenarioB 1 0) 1)
            0).relations wearsKind := by
  decide

/-- C3: two handlers declared for the same event kind in one class body
run in declaration order on every dispatch of an event of that kind: with
distinct declared routines, the first-declared routine's first invocation
comes before the later-declared routine's first invocation, and the
invocation sequence is a pure function of the registry and the mro, hence
identical across repeated dispatches of equal events. -/
theorem handlers_run_in_declaration_order (pre mid post : List ClassMember)
    (f1 f2 : HandlerId) (ecs1 ecs2 : List EventKind) (k : EventKind)
    (rest : List EventKind)
    (hnd : (funcsOf (twoHandlerBody pre mid post f1 f2 ecs1 ecs2)).Nodup)
    (hk1 : k ∈ ecs1) (hk2 : k ∈ ecs2) :
    (handle_event
        (buildRegistry (twoHandlerBody pre mid post f1 f2 ecs1 ecs2))
        (k :: rest)).1.indexOf f1
      < (handle_event
          (buildRegistry (twoHandlerBody pre mid post f1 f2 ecs1 ecs2))
          (k :: rest)).1.indexOf f2 := by
  have hfun : funcsOf (twoHandlerBody pre mid post f1 f2 ecs1 ecs2)
      = funcsOf pre ++ f1 :: (funcsOf mid ++ f2 :: funcsOf post) := by
    simp [twoHandlerBody, funcsOf]
  rw [hfun] at hnd
  obtain ⟨-, hnd2, hdisj⟩ := List.nodup_append.mp hnd
  obtain ⟨hf1no, hnd3⟩ := List.nodup_cons.mp hnd2
  obtain ⟨-, -, hdisj2⟩ := List.nodup_append.mp hnd3
  have h12 : f1 ≠ f2 := by
    intro he
    exact hf1no (by rw [he]; simp)
  have hf1P : f1 ∉ funcsOf pre := fun hmem => hdisj hmem (by simp)
  have hf2P : f2 ∉ funcsOf pre := fun hmem => hdisj hmem (by simp)
  have hf2M : f2 ∉ funcsOf mid := fun hmem => hdisj2 hmem (by simp)
  have hlook :
      regLookup (buildRegistry (twoHandlerBody pre mid post f1 f2 ecs1 ecs2)) k
        = handlersFor pre k
          ++ (memberHandlers (ClassMember.handlerMember f1 ecs1) k
            ++ (handlersFor mid k
              ++ (memberHandlers (ClassMember.handlerMember f2 ecs2) k
                ++ handlersFor post k))) := by
    rw [regLookup_buildRegistry]
    simp [twoHandlerBody, handlersFor]
  have hf1H1 : f1 ∈ memberHandlers (ClassMember.handlerMember f1 ecs1) k :=
    self_mem_memberHandlers f1 ecs1 k hk1
  have hf2H2 : f2 ∈ memberHandlers (ClassMember.handlerMember f2 ecs2) k :=
    self_mem_memberHandlers f2 ecs2 k hk2
  have hf2H1 : f2 ∉ memberHandlers (ClassMember.handlerMember f1 ecs1) k :=
    fun hmem => h12 (mem_memberHandlers_eq f1 f2 ecs1 k hmem).symm
  have hf1A : f1 ∉ handlersFor pre k :=
    fun hmem => hf1P (mem_funcsOf_of_mem_handlersFor pre k f1 hmem)
  have hf2A : f2 ∉ handlersFor pre k :=
    fun hmem => hf2P (mem_funcsOf_of_mem_handlersFor pre k f2 hmem)
  have hidx1 :
      (regLookup (buildRegistry
          (twoHandlerBody pre mid post f1 f2 ecs1 ecs2)) k).indexOf f1
        < (handlersFor pre k).length
          + (memberHandlers (ClassMember.handlerMember f1 ecs1) k).length := by
    rw [hlook, List.indexOf_append_of_not_mem hf1A,
      List.indexOf_append_of_mem hf1H1]
    have hb := List.indexOf_lt_length.mpr hf1H1
    omega
  have hidx2 :
      (handlersFor pre k).length
          + (memberHandlers (ClassMember.handlerMember f1 ecs1) k).length
        ≤ (regLookup (buildRegistry
            (twoHandlerBody pre mid post f1 f2 ecs1 ecs2)) k).indexOf f2 := by
    rw [hlook, List.indexOf_append_of_not_mem hf2A,
      List.indexOf_append_of_not_mem hf2H1]
    omega
  have hf1L : f1 ∈ regLookup
      (buildRegistry (twoHandlerBody pre mid post f1 f2 ecs1 ecs2)) k := by
    rw [hlook]
    simp [hf1H1]
  have hf2L : f2 ∈ regLookup
      (buildRegistry (twoHandlerBody pre mid post f1 f2 ecs1 ecs2)) k := by
    rw [hlook]
    simp [hf2H2]
  rw [handle_event_fst]
  simp only [List.flatMap_cons]
  rw [List.indexOf_append_of_mem hf1L, List.indexOf_append_of_mem hf2L]
  omega

/-- C3 witness: a body declaring routine 7 then routine 8, both for event
kind 2; the dispatch of a kind-2 event invokes 7 before 8. -/
theorem handlers_run_in_declaration_order_witness :
    (handle_event (buildRegistry (twoHandlerBody [] [] [] 7 8 [2] [2]))
        (2 :: [])).1.indexOf 7
      < (handle_event (buildRegistry (twoHandlerBody [] [] [] 7 8 [2] [2]))
          (2 :: [])).1.indexOf 8 :=
  handlers_run_in_declaration_order [] [] [] 7 8 [2] [2] 2 []
    (by decide) (by decide) (by decide)

end Flax
